import Mathlib

/-!
Verification of the bayesian-consensus-engine repository.

This file shallowly embeds the algorithmic core of the repository in Lean:

* `src/bayesian_engine/config.py`      — the configuration constants;
* `src/bayesian_engine/core.py`        — payload validation and the consensus
  aggregation (`validate_input_payload`, `compute_consensus`);
* `src/bayesian_engine/decay.py`       — exponential time decay
  (`compute_decay_factor`, `apply_reliability_decay`);
* `src/bayesian_engine/reliability.py` — the reliability store
  (`get_reliability`, `update_reliability`, `list_sources`), with the SQLite
  table modelled as a list of rows and each operation modelled as an explicit
  state transformer returning the rows after the SQL it executes.

Python floats are modelled as exact rationals (`ℚ`) in the consensus engine
and as reals (`ℝ`) in the decay/store layer (the decay formula uses a real
exponential).  Python dicts with possibly-missing keys are modelled as
association lists / `Option`-valued functions.  Wall-clock time and ISO
timestamp parsing (`days_since_update`) are abstracted by passing the
elapsed-days function as an explicit parameter.
-/

/-! ## Configuration constants (`config.py`) -/

/-- `config.DEFAULT_RELIABILITY = 0.50` — cold-start reliability for new sources. -/
def DEFAULT_RELIABILITY : ℚ := 1/2

/-- `config.DEFAULT_CONFIDENCE = 0.25` — cold-start confidence for new sources. -/
def DEFAULT_CONFIDENCE : ℚ := 1/4

/-- `config.MAX_UPDATE_STEP = 0.10` — maximum single-step change to reliability. -/
def MAX_UPDATE_STEP : ℚ := 1/10

/-- `config.TIE_TOLERANCE = 1e-9`. -/
def TIE_TOLERANCE : ℚ := 1/1000000000

/-- `config.DECAY_HALF_LIFE_DAYS = 30`. -/
def DECAY_HALF_LIFE_DAYS : ℚ := 30

/-- `config.DECAY_MINIMUM = 0.10` — floor reliability never decays below. -/
def DECAY_MINIMUM : ℚ := 1/10

/-- `config.SCHEMA_VERSION = "1.0.0"`. -/
def SCHEMA_VERSION : String := "1.0.0"

/-- `config.MIN_SOURCE_ID_LENGTH = 1`. -/
def MIN_SOURCE_ID_LENGTH : ℕ := 1

/-- `config.MAX_SOURCE_ID_LENGTH = 256`. -/
def MAX_SOURCE_ID_LENGTH : ℕ := 256

/-- `config.MAX_SIGNALS_PER_REQUEST = 1000`. -/
def MAX_SIGNALS_PER_REQUEST : ℕ := 1000

/-- `reliability._BASE_LEARNING_RATE = 0.15` — learning rate applied before capping. -/
def BASE_LEARNING_RATE : ℚ := 3/20

/-! ## Consensus engine data model (`core.py`) -/

/-- One signal of the request: `{"sourceId": ..., "probability": ...}`. -/
structure Signal where
  sourceId : String
  probability : ℚ
deriving DecidableEq, Inhabited

/-- One value of the `source_reliability` dict passed to `compute_consensus`:
a dict that may lack the `"reliability"` and `"confidence"` keys (the code
reads both with `dict.get(key, default)`). -/
structure RelData where
  reliability : Option ℚ
  confidence : Option ℚ
deriving DecidableEq, Inhabited

/-- The `source_reliability` argument after `None` was replaced by `{}`:
a mapping from `sourceId` to the per-source dict, `none` when the key is
absent from the dict. -/
def RelLookup : Type := String → Option RelData

/-- Entry of the intermediate `source_data` list built in the main loop of
`compute_consensus` (`core.py` lines 122-128). -/
structure SourceData where
  sourceId : String
  probability : ℚ
  reliability : ℚ
  confidence : ℚ
  weight : ℚ
deriving DecidableEq, Inhabited

/-- Entry of the `sourceWeights` output list (`core.py` lines 147-154). -/
structure SourceWeight where
  sourceId : String
  weight : ℚ
  normalizedWeight : ℚ
deriving DecidableEq, Inhabited

/-- The `normalization` output dict (`core.py` lines 157-160). -/
structure Normalization where
  totalWeight : ℚ
  sourceCount : ℕ
deriving DecidableEq, Inhabited

/-- The `diagnostics` output dict.  The `uniqueSources` and `coldStartSources`
keys are present only on the `"computed"` path (`core.py` lines 162-171); the
`"no_signals"` early return (line 95) emits only `status` and `sources`, so
those two fields are modelled as `Option`s, `none` meaning the key is absent
from the returned dict. -/
structure Diagnostics where
  status : String
  sources : ℕ
  uniqueSources : Option ℕ
  coldStartSources : Option (List String)
deriving DecidableEq, Inhabited

/-- The full return value of `compute_consensus` (`core.py` lines 173-180);
`consensus = none` models Python `None`. -/
structure ConsensusResult where
  schemaVersion : String
  consensus : Option ℚ
  confidence : ℚ
  sourceWeights : List SourceWeight
  normalization : Normalization
  diagnostics : Diagnostics
deriving DecidableEq, Inhabited

/-! ## Consensus engine (`core.py`, `compute_consensus`)

The body of the per-source loop is split into named functions, one per local
variable of the loop, so the theorems below can speak about them; each mirrors
the corresponding line of `core.py`. -/

/-- `source_ids = sorted({s["sourceId"] for s in signals})` (`core.py` line 103). -/
def sourceIdsOf (signals : List Signal) : List String :=
  List.insertionSort (· ≤ ·) ((signals.map Signal.sourceId).dedup)

/-- `rel_data = source_reliability.get(sid, {})` followed by
`rel_data.get("reliability", DEFAULT_RELIABILITY)` (`core.py` lines 110-111). -/
def relOf (sr : RelLookup) (sid : String) : ℚ :=
  (((sr sid).getD ⟨none, none⟩).reliability).getD DEFAULT_RELIABILITY

/-- `rel_data.get("confidence", DEFAULT_CONFIDENCE)` (`core.py` line 112). -/
def confOf (sr : RelLookup) (sid : String) : ℚ :=
  (((sr sid).getD ⟨none, none⟩).confidence).getD DEFAULT_CONFIDENCE

/-- `source_signals = [s for s in signals if s["sourceId"] == sid]` (`core.py` line 115). -/
def sourceSignalsOf (signals : List Signal) (sid : String) : List Signal :=
  signals.filter (fun s => s.sourceId == sid)

/-- `avg_prob = sum(s["probability"] for s in source_signals) / len(source_signals)`
(`core.py` line 116). -/
def avgProbOf (signals : List Signal) (sid : String) : ℚ :=
  ((sourceSignalsOf signals sid).map Signal.probability).sum
    / ((sourceSignalsOf signals sid).length : ℚ)

/-- The `source_data` list built by the loop (`core.py` lines 106-128); the
per-source `weight` is the fetched reliability (line 119). -/
def sourceDataOf (signals : List Signal) (sr : RelLookup) : List SourceData :=
  (sourceIdsOf signals).map (fun sid =>
    { sourceId := sid
      probability := avgProbOf signals sid
      reliability := relOf sr sid
      confidence := confOf sr sid
      weight := relOf sr sid })

/-- `total_weight`, accumulated over the loop (`core.py` lines 107, 120). -/
def totalWeightOf (signals : List Signal) (sr : RelLookup) : ℚ :=
  ((sourceDataOf signals sr).map SourceData.weight).sum

/-- `compute_consensus(signals, source_reliability)` (`core.py` lines 63-180).
`source_reliability = none` models the Python default `None`, replaced by the
empty dict at line 100. -/
def compute_consensus (signals : List Signal)
    (source_reliability : Option RelLookup) : ConsensusResult :=
  if signals = [] then
    { schemaVersion := SCHEMA_VERSION
      consensus := none
      confidence := 0
      sourceWeights := []
      normalization := { totalWeight := 0, sourceCount := 0 }
      diagnostics :=
        { status := "no_signals", sources := 0
          uniqueSources := none, coldStartSources := none } }
  else
    let sr : RelLookup := source_reliability.getD (fun _ => none)
    let source_data := sourceDataOf signals sr
    let total_weight := totalWeightOf signals sr
    let consensus : Option ℚ :=
      if total_weight = 0 then none
      else some (((source_data.map (fun sd => sd.probability * sd.weight)).sum)
        / total_weight)
    let final_confidence : ℚ :=
      if total_weight = 0 then 0
      else ((source_data.map (fun sd => sd.confidence * sd.weight)).sum)
        / total_weight
    { schemaVersion := SCHEMA_VERSION
      consensus := consensus
      confidence := final_confidence
      sourceWeights := source_data.map (fun sd =>
        { sourceId := sd.sourceId
          weight := sd.weight
          normalizedWeight :=
            if 0 < total_weight then sd.weight / total_weight else 0 })
      normalization :=
        { totalWeight := total_weight
          sourceCount := (sourceIdsOf signals).length }
      diagnostics :=
        { status := "computed"
          sources := signals.length
          uniqueSources := some (sourceIdsOf signals).length
          coldStartSources := some
            ((source_data.filter (fun sd => (sr sd.sourceId).isNone)).map
              SourceData.sourceId) } }

/-! ## Validation layer (`core.py`, `validate_input_payload`)

Python runtime values reaching the validator are modelled by `PyVal`; dicts
are association lists (first binding wins, as in `dict` lookup of distinct
keys).  The validator returns `Except`: `Except.error msg` models a raised
`ValidationError` and `Except.ok ()` a normal return. -/

/-- A dynamically-typed Python value, as far as the validator inspects one. -/
inductive PyVal where
  | pstr : String → PyVal
  | pnum : ℚ → PyVal
  | plist : List PyVal → PyVal
  | pdict : List (String × PyVal) → PyVal
  | pnone : PyVal

/-- Dict lookup: `payload[key]` / `key in payload`. -/
def dictFind (entries : List (String × PyVal)) (key : String) : Option PyVal :=
  (entries.find? (fun e => e.1 == key)).map (fun e => e.2)

/-- `_require(payload, key)` (`core.py` lines 18-21). -/
def pyRequire (entries : List (String × PyVal)) (key : String) :
    Except String PyVal :=
  match dictFind entries key with
  | some v => Except.ok v
  | none => Except.error (key ++ " is required")

/-- Python `not s.strip()`: true iff the string is empty or all whitespace. -/
def isBlankStr (s : String) : Bool :=
  s.data.all Char.isWhitespace

/-- Validation of one element of `signals` (`core.py` lines 48-60);
`idx` is the enumeration index used in the error messages. -/
def validateSignal (idx : ℕ) (signal : PyVal) : Except String Unit :=
  match signal with
  | PyVal.pdict d => do
    let sv ← pyRequire d "sourceId"
    (match sv with
     | PyVal.pstr s =>
       if isBlankStr s then
         Except.error ("signals[" ++ Nat.repr idx ++ "].sourceId must be a non-empty string")
       else Except.ok ()
     | _ =>
       Except.error ("signals[" ++ Nat.repr idx ++ "].sourceId must be a non-empty string"))
    let pv ← pyRequire d "probability"
    match pv with
    | PyVal.pnum q =>
      if q < 0 ∨ 1 < q then
        Except.error ("signals[" ++ Nat.repr idx ++ "].probability must be between 0 and 1")
      else Except.ok ()
    | _ =>
      Except.error ("signals[" ++ Nat.repr idx ++ "].probability must be a number")
  | _ => Except.error ("signals[" ++ Nat.repr idx ++ "] must be an object")

/-- The `for idx, signal in enumerate(signals)` loop of the validator. -/
def validateSignals (idx : ℕ) : List PyVal → Except String Unit
  | [] => Except.ok ()
  | sig :: rest => do
    validateSignal idx sig
    validateSignals (idx + 1) rest

/-- `validate_input_payload(payload)` (`core.py` lines 24-60).  Checks, in
order: `schemaVersion` present and equal to `SCHEMA_VERSION`; `marketId`
present, a string and non-blank; `signals` present and a list; then each
signal.  The first failure short-circuits. -/
def validate_input_payload (payload : List (String × PyVal)) :
    Except String Unit := do
  let sv ← pyRequire payload "schemaVersion"
  (match sv with
   | PyVal.pstr s =>
     if s == SCHEMA_VERSION then Except.ok ()
     else Except.error ("schemaVersion must be '" ++ SCHEMA_VERSION ++ "'")
   | _ => Except.error ("schemaVersion must be '" ++ SCHEMA_VERSION ++ "'"))
  let mv ← pyRequire payload "marketId"
  (match mv with
   | PyVal.pstr s =>
     if isBlankStr s then Except.error "marketId must be a non-empty string"
     else Except.ok ()
   | _ => Except.error "marketId must be a non-empty string")
  let sg ← pyRequire payload "signals"
  match sg with
  | PyVal.plist xs => validateSignals 0 xs
  | _ => Except.error "signals must be an array"

/-! ## Decay function (`decay.py`)

Reliability values and elapsed days are reals; `2.0 ** exponent` is real
exponentiation (`Real.rpow`). -/

/-- `compute_decay_factor(elapsed_days, half_life_days)` (`decay.py` lines 31-58):
`1.0` when `elapsed_days <= 0`, else `2.0 ** (-elapsed_days / half_life_days)`. -/
noncomputable def compute_decay_factor (elapsed_days half_life_days : ℝ) : ℝ :=
  if elapsed_days ≤ 0 then 1
  else (2 : ℝ) ^ (-elapsed_days / half_life_days)

/-- `apply_reliability_decay(current_reliability, elapsed_days, half_life_days,
min_reliability)` (`decay.py` lines 61-100): unchanged when `elapsed_days <= 0`,
else `max(min_reliability, min(1.0, min_reliability + (current - min) * factor))`. -/
noncomputable def apply_reliability_decay (current_reliability elapsed_days
    half_life_days min_reliability : ℝ) : ℝ :=
  if elapsed_days ≤ 0 then current_reliability
  else
    max min_reliability (min 1
      (min_reliability + (current_reliability - min_reliability)
        * compute_decay_factor elapsed_days half_life_days))

/-! ## Reliability store (`reliability.py`)

The SQLite `sources` table is a list of rows; the primary key
`(source_id, market_id)` means a well-formed table has at most one row per
key, and the upsert below preserves that.  Each public operation is a state
transformer `Store → (result × Store)` whose `Store` component is the table
after the SQL statements the method executes: `get_reliability` runs only a
`SELECT`, so it returns the table unchanged; `update_reliability` runs the
upsert.  ISO-timestamp parsing (`days_since_update` evaluated at the current
wall clock) is abstracted as the parameter `elapsed_of : String → ℝ`, and the
wall-clock timestamp written by `update_reliability` as the parameter `now`. -/

/-- A row of the `sources` table / the frozen dataclass `ReliabilityRecord`. -/
structure ReliabilityRecord where
  source_id : String
  market_id : String
  reliability : ℝ
  confidence : ℝ
  updated_at : String

/-- The contents of the `sources` table. -/
def Store : Type := List ReliabilityRecord

/-- The `WHERE source_id = ? AND market_id = ?` predicate. -/
def rowMatches (source_id market_id : String) (r : ReliabilityRecord) : Bool :=
  r.source_id == source_id && r.market_id == market_id

/-- `fetchone` of the keyed `SELECT` (`reliability.py` lines 104-108). -/
def findRow (s : Store) (source_id market_id : String) :
    Option ReliabilityRecord :=
  s.find? (rowMatches source_id market_id)

/-- The `INSERT ... ON CONFLICT(source_id, market_id) DO UPDATE` statement
(`reliability.py` lines 179-189): any row with the record's key is replaced,
otherwise the record is inserted. -/
def upsert (s : Store) (r : ReliabilityRecord) : Store :=
  s.filter (fun q => !(rowMatches r.source_id r.market_id q)) ++ [r]

/-- `get_reliability(source_id, market_id, apply_decay)` (`reliability.py`
lines 85-140).  When a row exists, decay is applied to its reliability only if
`apply_decay` is set, the stored timestamp is non-empty, and the elapsed days
are positive; the cold-start branch returns the config defaults with an empty
timestamp.  The table is returned unchanged (the method only `SELECT`s). -/
noncomputable def get_reliability (s : Store) (source_id market_id : String)
    (apply_decay : Bool) (elapsed_of : String → ℝ) :
    ReliabilityRecord × Store :=
  match findRow s source_id market_id with
  | some row =>
    let reliability :=
      if apply_decay ∧ row.updated_at ≠ "" then
        if 0 < elapsed_of row.updated_at then
          apply_reliability_decay row.reliability (elapsed_of row.updated_at)
            ((DECAY_HALF_LIFE_DAYS : ℚ) : ℝ) ((DECAY_MINIMUM : ℚ) : ℝ)
        else row.reliability
      else row.reliability
    (⟨row.source_id, row.market_id, reliability, row.confidence,
      row.updated_at⟩, s)
  | none =>
    (⟨source_id, market_id, ((DEFAULT_RELIABILITY : ℚ) : ℝ),
      ((DEFAULT_CONFIDENCE : ℚ) : ℝ), ""⟩, s)

/-- `update_reliability(source_id, market_id, outcome_correct)`
(`reliability.py` lines 142-197): read the current record (no decay), apply
the capped learning step and the confidence step, clamp, upsert with the
current wall-clock timestamp `now`, and return the new record. -/
noncomputable def update_reliability (s : Store) (source_id market_id : String)
    (outcome_correct : Bool) (now : String) (elapsed_of : String → ℝ) :
    ReliabilityRecord × Store :=
  let current := (get_reliability s source_id market_id false elapsed_of).1
  let direction : ℝ := if outcome_correct then 1 else -1
  let raw_delta := ((BASE_LEARNING_RATE : ℚ) : ℝ) * direction
  let capped_delta := max (-((MAX_UPDATE_STEP : ℚ) : ℝ))
    (min ((MAX_UPDATE_STEP : ℚ) : ℝ) raw_delta)
  let new_reliability := max 0 (min 1 (current.reliability + capped_delta))
  let new_confidence := min 1
    (current.confidence + (1 - current.confidence) * (1/10 : ℝ))
  let rec2 : ReliabilityRecord :=
    ⟨source_id, market_id, new_reliability, new_confidence, now⟩
  (rec2, upsert s rec2)

/-- Order of the unfiltered `list_sources` query: `ORDER BY source_id, market_id`. -/
def recordKeyLe (a b : ReliabilityRecord) : Prop :=
  a.source_id < b.source_id ∨ (a.source_id = b.source_id ∧ a.market_id ≤ b.market_id)

instance : DecidableRel recordKeyLe := fun a b =>
  inferInstanceAs (Decidable (a.source_id < b.source_id ∨
    (a.source_id = b.source_id ∧ a.market_id ≤ b.market_id)))

/-- Order of the market-filtered `list_sources` query: `ORDER BY source_id`. -/
def recordSourceLe (a b : ReliabilityRecord) : Prop :=
  a.source_id ≤ b.source_id

instance : DecidableRel recordSourceLe := fun a b =>
  inferInstanceAs (Decidable (a.source_id ≤ b.source_id))

/-- `list_sources(market_id)` (`reliability.py` lines 199-228): all rows,
optionally filtered by market, sorted as in the SQL `ORDER BY`. -/
def list_sources (s : Store) (market_id : Option String) :
    List ReliabilityRecord :=
  match market_id with
  | some m => List.insertionSort recordSourceLe
      (s.filter (fun r => r.market_id == m))
  | none => List.insertionSort recordKeyLe s

/-- The clamp function of the specification: `clamp(x, lo, hi)` pins `x` into
`[lo, hi]` (for `lo ≤ hi`). -/
noncomputable def clamp (x lo hi : ℝ) : ℝ := max lo (min hi x)

/-! ## Helper lemmas about the store -/

/-- After the upsert, the keyed `SELECT` finds exactly the upserted record. -/
lemma findRow_upsert_self (s : Store) (r : ReliabilityRecord) :
    findRow (upsert s r) r.source_id r.market_id = some r := by
  unfold findRow upsert
  rw [List.find?_append]
  have h1 : (s.filter fun q => !(rowMatches r.source_id r.market_id q)).find?
      (rowMatches r.source_id r.market_id) = none := by
    rw [List.find?_eq_none]
    intro x hx
    have hx2 := (List.mem_filter.mp hx).2
    simp only [Bool.not_eq_true'] at hx2
    simp [hx2]
  rw [h1]
  simp [List.find?, rowMatches]

/-! ## Claim theorems -/

/-- C1: for every store state, source, market and outcome flag,
`update_reliability` reads the current record without decay applied
(`get_reliability` with `apply_decay = false`), returns a record whose
reliability is `clamp(current.reliability + clamp(0.15 * direction, -0.10,
0.10), 0, 1)` with `direction = +1` for a correct outcome and `-1` otherwise,
and whose confidence is `min(1, current.confidence + (1 -
current.confidence) * 0.10)`, stamped with `now`; and that record is
persisted: reading the key back from the updated table yields it. -/
theorem update_reliability_spec (s : Store) (source_id market_id : String)
    (outcome_correct : Bool) (now : String) (elapsed_of : String → ℝ) :
    (update_reliability s source_id market_id outcome_correct now elapsed_of).1 =
      { source_id := source_id
        market_id := market_id
        reliability := clamp
          ((get_reliability s source_id market_id false elapsed_of).1.reliability
            + clamp (((BASE_LEARNING_RATE : ℚ) : ℝ)
                * (if outcome_correct then 1 else -1))
              (-((MAX_UPDATE_STEP : ℚ) : ℝ)) ((MAX_UPDATE_STEP : ℚ) : ℝ))
          0 1
        confidence := min 1
          ((get_reliability s source_id market_id false elapsed_of).1.confidence
            + (1 - (get_reliability s source_id market_id false
                elapsed_of).1.confidence) * (1/10 : ℝ))
        updated_at := now } ∧
    (get_reliability
        (update_reliability s source_id market_id outcome_correct now
          elapsed_of).2
        source_id market_id false elapsed_of).1 =
      (update_reliability s source_id market_id outcome_correct now
        elapsed_of).1 := by
  constructor
  · rfl
  · have hf := findRow_upsert_self s
      (update_reliability s source_id market_id outcome_correct now elapsed_of).1
    have hkey : (update_reliability s source_id market_id outcome_correct now
        elapsed_of).1.source_id = source_id := rfl
    have hkey2 : (update_reliability s source_id market_id outcome_correct now
        elapsed_of).1.market_id = market_id := rfl
    rw [hkey, hkey2] at hf
    have hst : (update_reliability s source_id market_id outcome_correct now
        elapsed_of).2 = upsert s
      (update_reliability s source_id market_id outcome_correct now
        elapsed_of).1 := rfl
    rw [get_reliability, hst, hf]
    rfl

/-- C3 counterexample: with reliability `0.05`, elapsed time `0`, half-life
`30` and floor `0.10` — all inside the claim's quantifiers (`x ∈ [0,1]`,
`t ≥ 0`, `h > 0`) — `apply_reliability_decay` returns `0.05`, strictly below
the floor, because the `elapsed_days <= 0` branch returns the input
unchanged. -/
theorem decay_at_zero_elapsed_below_floor :
    apply_reliability_decay (1/20) 0 30 (1/10) = 1/20 ∧
    ((1/20 : ℝ) < 1/10) := by
  constructor
  · unfold apply_reliability_decay
    rw [if_pos le_rfl]
  · norm_num

/-- C3 (amended): for every reliability `x ∈ [0,1]`, half-life `h > 0` and
floor `f`: when the elapsed time is strictly positive the result is at least
`f`, at most `max f 1` (hence never above 1 when `f ≤ 1`), and a value
already at or below the floor comes back exactly at the floor; when the
elapsed time is `≤ 0` (in particular `t = 0`) the input is returned
unchanged, so the floor guarantee holds there only if the input already
satisfied it. -/
theorem apply_reliability_decay_bounds (x t h f : ℝ)
    (_hx0 : 0 ≤ x) (_hx1 : x ≤ 1) (_hh : 0 < h) :
    (0 < t →
      f ≤ apply_reliability_decay x t h f ∧
      apply_reliability_decay x t h f ≤ max f 1 ∧
      (x ≤ f → apply_reliability_decay x t h f = f)) ∧
    (t ≤ 0 → apply_reliability_decay x t h f = x) := by
  constructor
  · intro ht
    have hnt : ¬ t ≤ 0 := not_le.mpr ht
    have hfac : 0 < compute_decay_factor t h := by
      unfold compute_decay_factor
      rw [if_neg hnt]
      exact Real.rpow_pos_of_pos (by norm_num) _
    unfold apply_reliability_decay
    rw [if_neg hnt]
    refine ⟨le_max_left _ _, max_le_max le_rfl (min_le_left _ _), ?_⟩
    intro hxf
    have hd : f + (x - f) * compute_decay_factor t h ≤ f := by
      nlinarith [sub_nonpos.mpr hxf]
    exact max_eq_left (le_trans (min_le_right _ _) hd)
  · intro ht
    unfold apply_reliability_decay
    rw [if_pos ht]

/-- C3 witness: the amended theorem applied at `x = 0.8`, `t = 10`, `h = 30`,
`f = 0.1`. -/
theorem apply_reliability_decay_bounds_witness :
    (0 < (10:ℝ) →
      (1/10 : ℝ) ≤ apply_reliability_decay (4/5) 10 30 (1/10) ∧
      apply_reliability_decay (4/5) 10 30 (1/10) ≤ max (1/10 : ℝ) 1 ∧
      ((4/5 : ℝ) ≤ 1/10 → apply_reliability_decay (4/5) 10 30 (1/10) = 1/10)) ∧
    ((10:ℝ) ≤ 0 → apply_reliability_decay (4/5) 10 30 (1/10) = 4/5) :=
  apply_reliability_decay_bounds (4/5) 10 30 (1/10)
    (by norm_num) (by norm_num) (by norm_num)

/-- C9: for every half-life `h > 0`, `compute_decay_factor` is `1` for
non-positive elapsed time and `2 ^ (-elapsed/h)` otherwise; it satisfies the
three anchor values `factor(0,h) = 1`, `factor(h,h) = 1/2`,
`factor(2h,h) = 1/4`; it is strictly decreasing in the elapsed time on
`(0, ∞)`; and it always lies in `(0, 1]`. -/
theorem compute_decay_factor_spec (t h : ℝ) (hh : 0 < h) :
    (t ≤ 0 → compute_decay_factor t h = 1) ∧
    (0 < t → compute_decay_factor t h = (2 : ℝ) ^ (-t / h)) ∧
    compute_decay_factor 0 h = 1 ∧
    compute_decay_factor h h = 1/2 ∧
    compute_decay_factor (2*h) h = 1/4 ∧
    (∀ t1 t2 : ℝ, 0 < t1 → t1 < t2 →
      compute_decay_factor t2 h < compute_decay_factor t1 h) ∧
    (0 < compute_decay_factor t h ∧ compute_decay_factor t h ≤ 1) := by
  have hne : h ≠ 0 := ne_of_gt hh
  refine ⟨?_, ?_, ?_, ?_, ?_, ?_, ?_, ?_⟩
  · intro ht
    unfold compute_decay_factor
    rw [if_pos ht]
  · intro ht
    unfold compute_decay_factor
    rw [if_neg (not_le.mpr ht)]
  · unfold compute_decay_factor
    rw [if_pos le_rfl]
  · unfold compute_decay_factor
    rw [if_neg (not_le.mpr hh)]
    have hexp : -h / h = ((-1 : ℤ) : ℝ) := by
      rw [Int.cast_neg, Int.cast_one, neg_div, div_self hne]
    rw [hexp, Real.rpow_intCast]
    norm_num
  · unfold compute_decay_factor
    rw [if_neg (not_le.mpr (by linarith))]
    have hexp : -(2*h) / h = ((-2 : ℤ) : ℝ) := by
      push_cast
      rw [neg_div, mul_div_assoc, div_self hne, mul_one]
    rw [hexp, Real.rpow_intCast]
    norm_num
  · intro t1 t2 ht1 ht12
    unfold compute_decay_factor
    rw [if_neg (not_le.mpr ht1), if_neg (not_le.mpr (lt_trans ht1 ht12))]
    rw [Real.rpow_lt_rpow_left_iff (by norm_num : (1:ℝ) < 2)]
    have hq : t1 / h < t2 / h := by gcongr
    rw [neg_div, neg_div]
    exact neg_lt_neg hq
  · rcases le_or_lt t 0 with ht | ht
    · unfold compute_decay_factor
      rw [if_pos ht]
      norm_num
    · unfold compute_decay_factor
      rw [if_neg (not_le.mpr ht)]
      exact Real.rpow_pos_of_pos (by norm_num) _
  · rcases le_or_lt t 0 with ht | ht
    · unfold compute_decay_factor
      rw [if_pos ht]
    · unfold compute_decay_factor
      rw [if_neg (not_le.mpr ht)]
      apply Real.rpow_le_one_of_one_le_of_nonpos (by norm_num)
      rw [neg_div]
      exact neg_nonpos.mpr (div_nonneg ht.le hh.le)

/-- C9 witness: the theorem applied at `t = 7`, `h = 30`. -/
theorem compute_decay_factor_spec_witness :
    ((7:ℝ) ≤ 0 → compute_decay_factor 7 30 = 1) ∧
    (0 < (7:ℝ) → compute_decay_factor 7 30 = (2 : ℝ) ^ (-(7:ℝ) / 30)) ∧
    compute_decay_factor 0 30 = 1 ∧
    compute_decay_factor 30 30 = 1/2 ∧
    compute_decay_factor (2*30) 30 = 1/4 ∧
    (∀ t1 t2 : ℝ, 0 < t1 → t1 < t2 →
      compute_decay_factor t2 30 < compute_decay_factor t1 30) ∧
    (0 < compute_decay_factor 7 30 ∧ compute_decay_factor 7 30 ≤ 1) :=
  compute_decay_factor_spec 7 30 (by norm_num)

/-- C4: reading an absent `(source_id, market_id)` pair returns the in-memory
cold-start record — reliability `0.50`, confidence `0.25`, empty timestamp —
and leaves the table untouched: the store after the read is the store before
it, so `list_sources` observes identical contents. -/
theorem get_reliability_cold_start_frame (s : Store)
    (source_id market_id : String) (apply_decay : Bool)
    (elapsed_of : String → ℝ)
    (hnone : findRow s source_id market_id = none) :
    (get_reliability s source_id market_id apply_decay elapsed_of).1 =
      { source_id := source_id
        market_id := market_id
        reliability := (1/2 : ℝ)
        confidence := (1/4 : ℝ)
        updated_at := "" } ∧
    (get_reliability s source_id market_id apply_decay elapsed_of).2 = s ∧
    (∀ m : Option String,
      list_sources (get_reliability s source_id market_id apply_decay
        elapsed_of).2 m = list_sources s m) := by
  unfold get_reliability
  rw [hnone]
  refine ⟨?_, rfl, fun m => rfl⟩
  norm_num [DEFAULT_RELIABILITY, DEFAULT_CONFIDENCE]

/-- C4 witness: the theorem applied to the empty store. -/
theorem get_reliability_cold_start_frame_witness :
    (get_reliability [] "unknown" "m" false (fun _ => 0)).1 =
      { source_id := "unknown"
        market_id := "m"
        reliability := (1/2 : ℝ)
        confidence := (1/4 : ℝ)
        updated_at := "" } ∧
    (get_reliability [] "unknown" "m" false (fun _ => 0)).2 = [] ∧
    (∀ m : Option String,
      list_sources (get_reliability ([] : Store) "unknown" "m" false
        (fun _ => 0)).2 m = list_sources [] m) :=
  get_reliability_cold_start_frame [] "unknown" "m" false (fun _ => 0) rfl

/-- C6 counterexample: on a store with no row for the key, `get_reliability`
returns confidence `0.25`, not the `0.50` the claim asserts for the store's
cold start. -/
theorem store_cold_start_confidence_not_half :
    (get_reliability [] "unknown" "m" false (fun _ => 0)).1.confidence = 1/4 ∧
    (get_reliability [] "unknown" "m" false (fun _ => 0)).1.confidence ≠ 1/2 := by
  have h : (get_reliability ([] : Store) "unknown" "m" false
      (fun _ => 0)).1.confidence = ((DEFAULT_CONFIDENCE : ℚ) : ℝ) := rfl
  rw [h]
  norm_num [DEFAULT_CONFIDENCE]

/-- C6 (amended): the store's cold-start confidence equals the engine's
`DEFAULT_CONFIDENCE = 0.25`; there is no behavioural asymmetry.  (The value
`0.50` appears only in the module docstring and as the SQL column default,
never in a returned record.) -/
theorem store_cold_start_confidence_quarter (s : Store)
    (source_id market_id : String) (apply_decay : Bool)
    (elapsed_of : String → ℝ)
    (hnone : findRow s source_id market_id = none) :
    (get_reliability s source_id market_id apply_decay elapsed_of).1.confidence
      = ((DEFAULT_CONFIDENCE : ℚ) : ℝ) ∧
    (DEFAULT_CONFIDENCE : ℚ) = 1/4 := by
  unfold get_reliability
  rw [hnone]
  exact ⟨rfl, by norm_num [DEFAULT_CONFIDENCE]⟩

/-- C6 witness: the amended theorem applied to the empty store. -/
theorem store_cold_start_confidence_quarter_witness :
    (get_reliability [] "u" "m" true (fun _ => 0)).1.confidence
      = ((DEFAULT_CONFIDENCE : ℚ) : ℝ) ∧
    (DEFAULT_CONFIDENCE : ℚ) = 1/4 :=
  store_cold_start_confidence_quarter [] "u" "m" true (fun _ => 0) rfl

/-- C5 counterexample: for the empty signals list the returned diagnostics
dict has neither a `uniqueSources` nor a `coldStartSources` key, so the claim
that every result's diagnostics carries a unique-source count and a
cold-start list fails on the empty input it explicitly includes. -/
theorem empty_signals_diagnostics_fields_absent :
    (compute_consensus [] none).diagnostics.uniqueSources = none ∧
    (compute_consensus [] none).diagnostics.coldStartSources = none :=
  ⟨rfl, rfl⟩

/-- C5 (amended): the diagnostics always carries a status and the raw signal
count; on non-empty input it additionally carries the unique source count and
the cold-start source list, while on the empty input it consists of exactly
`status = "no_signals"` and `sources = 0`, the other two keys being absent. -/
theorem diagnostics_fields (signals : List Signal)
    (source_reliability : Option RelLookup) :
    (signals = [] →
      (compute_consensus signals source_reliability).diagnostics =
        { status := "no_signals", sources := 0
          uniqueSources := none, coldStartSources := none }) ∧
    (signals ≠ [] →
      (compute_consensus signals source_reliability).diagnostics =
        { status := "computed"
          sources := signals.length
          uniqueSources := some (sourceIdsOf signals).length
          coldStartSources := some
            (((sourceDataOf signals
                (source_reliability.getD (fun _ => none))).filter
              (fun sd => ((source_reliability.getD (fun _ => none))
                sd.sourceId).isNone)).map SourceData.sourceId) }) := by
  constructor
  · intro h
    rw [compute_consensus, if_pos h]
  · intro h
    rw [compute_consensus, if_neg h]

/-- C5 witness: one signal from source `"a"` with no reliability dict — the
diagnostics evaluates to status `"computed"`, 1 raw signal, 1 unique source,
and `["a"]` as the cold-start list. -/
theorem diagnostics_fields_witness :
    (compute_consensus [⟨"a", 1/2⟩] none).diagnostics =
      { status := "computed", sources := 1
        uniqueSources := some 1, coldStartSources := some ["a"] } := by
  have h := (diagnostics_fields [⟨"a", 1/2⟩] none).2 (by simp)
  rw [h]
  simp [sourceDataOf, sourceIdsOf, List.insertionSort, List.orderedInsert]

/-! ## C7: a payload with an overlong sourceId -/

/-- A 257-character source id (257 copies of `'a'`). -/
def longSourceId : String := String.mk (List.replicate 257 'a')

/-- A payload that is valid in every respect except that its only signal's
`sourceId` exceeds `MAX_SOURCE_ID_LENGTH = 256` characters. -/
def longPayload : List (String × PyVal) :=
  [("schemaVersion", PyVal.pstr SCHEMA_VERSION),
   ("marketId", PyVal.pstr "m"),
   ("signals", PyVal.plist [PyVal.pdict
     [("sourceId", PyVal.pstr longSourceId),
      ("probability", PyVal.pnum (1/2))]])]

/-- A non-empty run of `'a'`s is not blank. -/
lemma isBlankStr_mk_replicate (n : ℕ) (hn : n ≠ 0) :
    isBlankStr (String.mk (List.replicate n 'a')) = false := by
  cases n with
  | zero => exact absurd rfl hn
  | succ m => simp [isBlankStr, List.replicate_succ]

/-- Length of a replicated-character string. -/
lemma length_mk_replicate (n : ℕ) :
    (String.mk (List.replicate n 'a')).length = n := by
  simp [String.length]

/-- C7 (code bug): `validate_input_payload` accepts a payload whose signal
`sourceId` is 257 characters long, although `config.MAX_SOURCE_ID_LENGTH`
documents a 256-character validation limit: no length check exists anywhere
in the validator, so no `ValidationError` is raised. -/
theorem validate_accepts_overlong_source_id :
    MAX_SOURCE_ID_LENGTH < longSourceId.length ∧
    validate_input_payload longPayload = Except.ok () := by
  constructor
  · rw [longSourceId, length_mk_replicate]
    norm_num [MAX_SOURCE_ID_LENGTH]
  · have h : ¬((1/2 : ℚ) < 0 ∨ 1 < (1/2 : ℚ)) := by norm_num
    have step : validate_input_payload longPayload
        = Except.bind
          (if ((1/2 : ℚ) < 0 ∨ 1 < (1/2 : ℚ)) then
            Except.error
              ("signals[" ++ Nat.repr 0 ++ "].probability must be between 0 and 1")
          else Except.ok ())
          (fun _ => validateSignals 1 []) := rfl
    rw [step, if_neg h]
    rfl

/-! ## C8: monotonicity of the bounded update -/

/-- The capped delta for a correct outcome evaluates to `+0.10`. -/
lemma capped_delta_true :
    max (-((MAX_UPDATE_STEP : ℚ) : ℝ)) (min ((MAX_UPDATE_STEP : ℚ) : ℝ)
      (((BASE_LEARNING_RATE : ℚ) : ℝ) * 1)) = (1/10 : ℝ) := by
  norm_num [MAX_UPDATE_STEP, BASE_LEARNING_RATE, min_def, max_def]

/-- The capped delta for an incorrect outcome evaluates to `-0.10`. -/
lemma capped_delta_false :
    max (-((MAX_UPDATE_STEP : ℚ) : ℝ)) (min ((MAX_UPDATE_STEP : ℚ) : ℝ)
      (((BASE_LEARNING_RATE : ℚ) : ℝ) * (-1))) = -(1/10 : ℝ) := by
  norm_num [MAX_UPDATE_STEP, BASE_LEARNING_RATE, min_def, max_def]

/-- Reliability written by a correct-outcome update, in closed form. -/
lemma update_reliability_rel_true (s : Store) (sid mid now : String)
    (e : String → ℝ) :
    (update_reliability s sid mid true now e).1.reliability
      = max 0 (min 1 ((get_reliability s sid mid false e).1.reliability
          + (1/10 : ℝ))) := by
  rw [← capped_delta_true]
  rfl

/-- Reliability written by an incorrect-outcome update, in closed form. -/
lemma update_reliability_rel_false (s : Store) (sid mid now : String)
    (e : String → ℝ) :
    (update_reliability s sid mid false now e).1.reliability
      = max 0 (min 1 ((get_reliability s sid mid false e).1.reliability
          - (1/10 : ℝ))) := by
  rw [show (get_reliability s sid mid false e).1.reliability - (1/10 : ℝ)
      = (get_reliability s sid mid false e).1.reliability + -(1/10 : ℝ) by ring]
  rw [← capped_delta_false]
  rfl

/-- Confidence written by any update, in closed form. -/
lemma update_reliability_conf (s : Store) (sid mid now : String) (oc : Bool)
    (e : String → ℝ) :
    (update_reliability s sid mid oc now e).1.confidence
      = min 1 ((get_reliability s sid mid false e).1.confidence
          + (1 - (get_reliability s sid mid false e).1.confidence)
            * (1/10 : ℝ)) := rfl

/-- A store whose single row is saturated at reliability `1.0` (reachable
from the cold start by five consecutive correct-outcome updates). -/
noncomputable def saturatedStore : Store := [⟨"a", "m", 1, 9/10, "t"⟩]

/-- C8 counterexample: at the saturated store the pre-update reliability is
`1.0` and a correct-outcome update writes reliability `1.0` again — not a
strict increase, refuting the unconditional strictness of the claim. -/
theorem update_at_saturation_not_strict :
    (get_reliability saturatedStore "a" "m" false (fun _ => 0)).1.reliability
      = 1 ∧
    (update_reliability saturatedStore "a" "m" true "t2"
      (fun _ => 0)).1.reliability = 1 := by
  constructor
  · rfl
  · rw [update_reliability_rel_true]
    rw [show (get_reliability saturatedStore "a" "m" false
        (fun _ => 0)).1.reliability = 1 from rfl]
    rw [min_eq_left (by norm_num : (1:ℝ) ≤ 1 + 1/10)]
    rw [max_eq_right (by norm_num : (0:ℝ) ≤ 1)]

/-- C8 (amended): provided the pre-update reliability lies in `[0,1]`:
a correct outcome strictly increases reliability whenever it was below `1.0`
and never by more than `+0.10`; it strictly increases confidence whenever it
was below `1.0`; an incorrect outcome strictly decreases reliability whenever
it was above `0.0` and never by more than `0.10`; and every update writes a
reliability inside `[0,1]`, so no sequence of repeated updates can leave
`[0,1]`. -/
theorem update_reliability_monotonicity (s : Store)
    (source_id market_id now : String) (elapsed_of : String → ℝ)
    (h0 : 0 ≤ (get_reliability s source_id market_id false
      elapsed_of).1.reliability)
    (h1 : (get_reliability s source_id market_id false
      elapsed_of).1.reliability ≤ 1) :
    ((get_reliability s source_id market_id false elapsed_of).1.reliability < 1 →
      (get_reliability s source_id market_id false elapsed_of).1.reliability
        < (update_reliability s source_id market_id true now
            elapsed_of).1.reliability) ∧
    ((update_reliability s source_id market_id true now
        elapsed_of).1.reliability
      ≤ (get_reliability s source_id market_id false elapsed_of).1.reliability
        + ((MAX_UPDATE_STEP : ℚ) : ℝ)) ∧
    ((get_reliability s source_id market_id false elapsed_of).1.confidence < 1 →
      (get_reliability s source_id market_id false elapsed_of).1.confidence
        < (update_reliability s source_id market_id true now
            elapsed_of).1.confidence) ∧
    (0 < (get_reliability s source_id market_id false
        elapsed_of).1.reliability →
      (update_reliability s source_id market_id false now
          elapsed_of).1.reliability
        < (get_reliability s source_id market_id false
            elapsed_of).1.reliability) ∧
    ((get_reliability s source_id market_id false elapsed_of).1.reliability
        - ((MAX_UPDATE_STEP : ℚ) : ℝ)
      ≤ (update_reliability s source_id market_id false now
          elapsed_of).1.reliability) ∧
    (∀ oc : Bool,
      0 ≤ (update_reliability s source_id market_id oc now
        elapsed_of).1.reliability ∧
      (update_reliability s source_id market_id oc now
        elapsed_of).1.reliability ≤ 1) := by
  have hM : ((MAX_UPDATE_STEP : ℚ) : ℝ) = (1/10 : ℝ) := by
    norm_num [MAX_UPDATE_STEP]
  refine ⟨?_, ?_, ?_, ?_, ?_, ?_⟩
  · intro hlt
    rw [update_reliability_rel_true]
    exact lt_of_lt_of_le (lt_min hlt (by linarith)) (le_max_right _ _)
  · rw [update_reliability_rel_true, hM]
    exact max_le (by linarith) (min_le_right _ _)
  · intro hc
    rw [update_reliability_conf]
    exact lt_min hc (by nlinarith)
  · intro hpos
    rw [update_reliability_rel_false]
    exact max_lt hpos (lt_of_le_of_lt (min_le_right _ _) (by linarith))
  · rw [update_reliability_rel_false, hM]
    rw [min_eq_right (by linarith : (get_reliability s source_id market_id
      false elapsed_of).1.reliability - (1/10 : ℝ) ≤ 1)]
    exact le_max_right _ _
  · intro oc
    cases oc
    · rw [update_reliability_rel_false]
      exact ⟨le_max_left _ _, max_le (by norm_num) (min_le_left _ _)⟩
    · rw [update_reliability_rel_true]
      exact ⟨le_max_left _ _, max_le (by norm_num) (min_le_left _ _)⟩

/-- C8 witness: the amended theorem applied to the empty store, whose
cold-start read yields reliability `0.5 ∈ [0,1]`. -/
theorem update_reliability_monotonicity_witness :
    ((get_reliability [] "a" "m" false (fun _ => 0)).1.reliability < 1 →
      (get_reliability [] "a" "m" false (fun _ => 0)).1.reliability
        < (update_reliability [] "a" "m" true "t"
            (fun _ => 0)).1.reliability) ∧
    ((update_reliability [] "a" "m" true "t" (fun _ => 0)).1.reliability
      ≤ (get_reliability [] "a" "m" false (fun _ => 0)).1.reliability
        + ((MAX_UPDATE_STEP : ℚ) : ℝ)) ∧
    ((get_reliability [] "a" "m" false (fun _ => 0)).1.confidence < 1 →
      (get_reliability [] "a" "m" false (fun _ => 0)).1.confidence
        < (update_reliability [] "a" "m" true "t"
            (fun _ => 0)).1.confidence) ∧
    (0 < (get_reliability [] "a" "m" false (fun _ => 0)).1.reliability →
      (update_reliability [] "a" "m" false "t" (fun _ => 0)).1.reliability
        < (get_reliability [] "a" "m" false (fun _ => 0)).1.reliability) ∧
    ((get_reliability [] "a" "m" false (fun _ => 0)).1.reliability
        - ((MAX_UPDATE_STEP : ℚ) : ℝ)
      ≤ (update_reliability [] "a" "m" false "t" (fun _ => 0)).1.reliability) ∧
    (∀ oc : Bool,
      0 ≤ (update_reliability [] "a" "m" oc "t" (fun _ => 0)).1.reliability ∧
      (update_reliability [] "a" "m" oc "t" (fun _ => 0)).1.reliability ≤ 1) :=
  update_reliability_monotonicity [] "a" "m" "t" (fun _ => 0)
    (by
      rw [show (get_reliability ([] : Store) "a" "m" false
        (fun _ => 0)).1.reliability = ((DEFAULT_RELIABILITY : ℚ) : ℝ) from rfl]
      norm_num [DEFAULT_RELIABILITY])
    (by
      rw [show (get_reliability ([] : Store) "a" "m" false
        (fun _ => 0)).1.reliability = ((DEFAULT_RELIABILITY : ℚ) : ℝ) from rfl]
      norm_num [DEFAULT_RELIABILITY])

/-! ## C10: normalized weights -/

/-- Dividing every entry of a list by a constant divides its sum. -/
lemma list_sum_map_div (l : List ℚ) (c : ℚ) :
    (l.map (fun x => x / c)).sum = l.sum / c := by
  induction l with
  | nil => simp
  | cons a t ih => simp [ih, add_div]

/-- C10: when all looked-up reliabilities are non-negative and the total
weight is strictly positive, every `sourceWeights` entry carries
`normalizedWeight = weight / totalWeight`, each normalized weight lies in
`[0,1]`, and the normalized weights sum to exactly `1`. -/
theorem normalized_weights_spec (signals : List Signal)
    (source_reliability : Option RelLookup)
    (hne : signals ≠ [])
    (hrel : ∀ sid ∈ sourceIdsOf signals,
      0 ≤ relOf (source_reliability.getD (fun _ => none)) sid)
    (hpos : 0 <
      (compute_consensus signals source_reliability).normalization.totalWeight) :
    (∀ e ∈ (compute_consensus signals source_reliability).sourceWeights,
      e.normalizedWeight = e.weight
        / (compute_consensus signals
            source_reliability).normalization.totalWeight ∧
      0 ≤ e.normalizedWeight ∧ e.normalizedWeight ≤ 1) ∧
    ((compute_consensus signals source_reliability).sourceWeights.map
      SourceWeight.normalizedWeight).sum = 1 := by
  have hW : (compute_consensus signals
      source_reliability).normalization.totalWeight
      = totalWeightOf signals (source_reliability.getD (fun _ => none)) := by
    rw [compute_consensus, if_neg hne]
  have hSW : (compute_consensus signals source_reliability).sourceWeights
      = (sourceDataOf signals (source_reliability.getD (fun _ => none))).map
        (fun sd =>
          { sourceId := sd.sourceId
            weight := sd.weight
            normalizedWeight :=
              if 0 < totalWeightOf signals
                  (source_reliability.getD (fun _ => none)) then
                sd.weight
                  / totalWeightOf signals
                    (source_reliability.getD (fun _ => none))
              else 0 }) := by
    rw [compute_consensus, if_neg hne]
  rw [hW] at hpos
  have hwnonneg : ∀ x ∈ (sourceDataOf signals
      (source_reliability.getD (fun _ => none))).map SourceData.weight,
      0 ≤ x := by
    intro x hx
    obtain ⟨sd, hsd, rfl⟩ := List.mem_map.mp hx
    obtain ⟨sid, hsid, rfl⟩ := List.mem_map.mp hsd
    exact hrel sid hsid
  constructor
  · intro e he
    rw [hSW] at he
    obtain ⟨sd, hsd, rfl⟩ := List.mem_map.mp he
    have hw0 : 0 ≤ sd.weight :=
      hwnonneg sd.weight (List.mem_map_of_mem SourceData.weight hsd)
    have hwle : sd.weight ≤ totalWeightOf signals
        (source_reliability.getD (fun _ => none)) :=
      List.single_le_sum hwnonneg sd.weight
        (List.mem_map_of_mem SourceData.weight hsd)
    refine ⟨?_, ?_, ?_⟩
    · rw [hW]
      exact if_pos hpos
    · rw [if_pos hpos]
      exact div_nonneg hw0 (le_of_lt hpos)
    · rw [if_pos hpos]
      exact (div_le_one hpos).mpr hwle
  · rw [hSW, List.map_map]
    have hrw : (SourceWeight.normalizedWeight ∘ fun sd : SourceData =>
        ({ sourceId := sd.sourceId
           weight := sd.weight
           normalizedWeight :=
             if 0 < totalWeightOf signals
                 (source_reliability.getD (fun _ => none)) then
               sd.weight
                 / totalWeightOf signals
                   (source_reliability.getD (fun _ => none))
             else 0 } : SourceWeight))
        = fun sd : SourceData => sd.weight
            / totalWeightOf signals
              (source_reliability.getD (fun _ => none)) := by
      funext sd
      simp [if_pos hpos]
    rw [hrw]
    rw [show (fun sd : SourceData => sd.weight
        / totalWeightOf signals (source_reliability.getD (fun _ => none)))
        = (fun x : ℚ => x / totalWeightOf signals
            (source_reliability.getD (fun _ => none))) ∘ SourceData.weight
      from rfl]
    rw [← List.map_map, list_sum_map_div]
    exact div_self (ne_of_gt hpos)

/-- C10 witness: two cold-start sources with distinct ids — total weight `1`,
each normalized weight `1/2`, summing to `1`. -/
theorem normalized_weights_spec_witness :
    (∀ e ∈ (compute_consensus [⟨"a", 3/5⟩, ⟨"b", 4/5⟩] none).sourceWeights,
      e.normalizedWeight = e.weight
        / (compute_consensus [⟨"a", 3/5⟩, ⟨"b", 4/5⟩]
            none).normalization.totalWeight ∧
      0 ≤ e.normalizedWeight ∧ e.normalizedWeight ≤ 1) ∧
    ((compute_consensus [⟨"a", 3/5⟩, ⟨"b", 4/5⟩] none).sourceWeights.map
      SourceWeight.normalizedWeight).sum = 1 :=
  normalized_weights_spec [⟨"a", 3/5⟩, ⟨"b", 4/5⟩] none
    (by simp)
    (by
      intro sid _
      norm_num [relOf, DEFAULT_RELIABILITY])
    (by
      have hab : (['a'] : List Char) ≤ ['b'] := by decide
      rw [compute_consensus, if_neg (by simp)]
      simp [totalWeightOf, sourceDataOf, sourceIdsOf, relOf,
        DEFAULT_RELIABILITY, List.insertionSort, List.orderedInsert, hab])

/-! ## C2: duplicate signals -/

/-- Two signal lists whose sets of source ids agree yield the same sorted
distinct-source list. -/
lemma sourceIdsOf_eq_of_mem_iff (l1 l2 : List Signal)
    (h : ∀ a : String,
      a ∈ l1.map Signal.sourceId ↔ a ∈ l2.map Signal.sourceId) :
    sourceIdsOf l1 = sourceIdsOf l2 := by
  unfold sourceIdsOf
  have hperm : List.Perm ((l1.map Signal.sourceId).dedup)
      ((l2.map Signal.sourceId).dedup) := by
    rw [List.perm_ext_iff_of_nodup (List.nodup_dedup _) (List.nodup_dedup _)]
    intro a
    simp only [List.mem_dedup]
    exact h a
  exact List.eq_of_perm_of_sorted
    (((List.perm_insertionSort _ _).trans hperm).trans
      (List.perm_insertionSort _ _).symm)
    (List.sorted_insertionSort _ _) (List.sorted_insertionSort _ _)

/-- If every signal a source contributed carries the same probability `p`,
its per-source average is `p`. -/
lemma avgProbOf_eq_of_const (l : List Signal) (sid : String) (p : ℚ)
    (hne : sourceSignalsOf l sid ≠ [])
    (hconst : ∀ t ∈ sourceSignalsOf l sid, t.probability = p) :
    avgProbOf l sid = p := by
  unfold avgProbOf
  have hsum : ((sourceSignalsOf l sid).map Signal.probability).sum
      = ((sourceSignalsOf l sid).map Signal.probability).length • p :=
    List.sum_eq_card_nsmul _ p (by
      intro x hx
      obtain ⟨t, ht, rfl⟩ := List.mem_map.mp hx
      exact hconst t ht)
  rw [hsum]
  have hlen : ((sourceSignalsOf l sid).length : ℚ) ≠ 0 := by
    exact_mod_cast (List.length_pos.mpr hne).ne'
  rw [List.length_map, nsmul_eq_mul]
  field_simp

/-- The consensus value of a non-empty signals list, unfolded. -/
lemma consensus_value (signals : List Signal)
    (source_reliability : Option RelLookup) (h : signals ≠ []) :
    (compute_consensus signals source_reliability).consensus =
      (if totalWeightOf signals (source_reliability.getD (fun _ => none)) = 0
       then none
       else some ((((sourceDataOf signals
           (source_reliability.getD (fun _ => none))).map
             (fun sd => sd.probability * sd.weight)).sum)
         / totalWeightOf signals
             (source_reliability.getD (fun _ => none)))) := by
  rw [compute_consensus, if_neg h]

/-- C2 counterexample: source `"a"` contributes probabilities `0.2` and `0.8`
and source `"b"` contributes `0.6`; replacing the single `0.8` signal of
`"a"` by three copies of itself (same sourceId, same probability) moves the
consensus from `0.55` to `0.625`, because the source's averaged probability
changes from `0.5` to `0.65`. -/
theorem duplicate_signal_changes_consensus :
    (compute_consensus
        [⟨"a", 1/5⟩, ⟨"a", 4/5⟩, ⟨"a", 4/5⟩, ⟨"a", 4/5⟩, ⟨"b", 3/5⟩]
        none).consensus
      ≠ (compute_consensus [⟨"a", 1/5⟩, ⟨"a", 4/5⟩, ⟨"b", 3/5⟩]
          none).consensus := by
  have hab : (['a'] : List Char) ≤ ['b'] := by decide
  simp [compute_consensus, totalWeightOf, sourceDataOf, sourceIdsOf, avgProbOf,
    sourceSignalsOf, relOf, confOf, DEFAULT_RELIABILITY, DEFAULT_CONFIDENCE,
    List.insertionSort, List.orderedInsert, hab]
  norm_num

/-- C2 (amended): replacing one signal of a source by several copies of that
signal leaves the consensus unchanged **provided all of that source's signals
carry the duplicated signal's probability** (in particular whenever the
duplicated signal is the source's only signal): the source's signals are
first averaged — which then reproduces that probability — and the source is
weighted only by its single reliability-derived weight, so duplication adds
no influence.  (Without that proviso the duplication shifts the source's
average, see the counterexample.) -/
theorem consensus_duplicate_single_probability_source
    (L1 L2 : List Signal) (s : Signal) (k : ℕ) (hk : 1 ≤ k)
    (source_reliability : Option RelLookup)
    (hconst : ∀ t ∈ L1 ++ s :: L2, t.sourceId = s.sourceId →
      t.probability = s.probability) :
    (compute_consensus (L1 ++ List.replicate k s ++ L2)
        source_reliability).consensus
      = (compute_consensus (L1 ++ s :: L2) source_reliability).consensus := by
  have hk0 : k ≠ 0 := Nat.one_le_iff_ne_zero.mp hk
  have hsdup : s ∈ L1 ++ List.replicate k s ++ L2 := by
    simp [List.mem_append, List.mem_replicate, hk0]
  have hsorig : s ∈ L1 ++ s :: L2 := by simp
  have hne1 : L1 ++ List.replicate k s ++ L2 ≠ [] :=
    List.ne_nil_of_mem hsdup
  have hne2 : L1 ++ s :: L2 ≠ [] := List.ne_nil_of_mem hsorig
  have hmem : ∀ a : String,
      a ∈ (L1 ++ List.replicate k s ++ L2).map Signal.sourceId ↔
      a ∈ (L1 ++ s :: L2).map Signal.sourceId := by
    intro a
    simp only [List.map_append, List.mem_append, List.map_replicate,
      List.mem_replicate, List.map_cons, List.mem_cons]
    constructor
    · rintro ((h | ⟨-, h⟩) | h)
      · exact Or.inl h
      · exact Or.inr (Or.inl h)
      · exact Or.inr (Or.inr h)
    · rintro (h | h | h)
      · exact Or.inl (Or.inl h)
      · exact Or.inl (Or.inr ⟨hk0, h⟩)
      · exact Or.inr h
  have hids : sourceIdsOf (L1 ++ List.replicate k s ++ L2)
      = sourceIdsOf (L1 ++ s :: L2) :=
    sourceIdsOf_eq_of_mem_iff _ _ hmem
  have havg : ∀ sid : String,
      avgProbOf (L1 ++ List.replicate k s ++ L2) sid
        = avgProbOf (L1 ++ s :: L2) sid := by
    intro sid
    by_cases hsid : sid = s.sourceId
    · subst hsid
      have h1 : avgProbOf (L1 ++ List.replicate k s ++ L2) s.sourceId
          = s.probability := by
        apply avgProbOf_eq_of_const _ _ _
          (List.ne_nil_of_mem (List.mem_filter.mpr ⟨hsdup, by simp⟩))
        intro t ht
        have ht2 := List.mem_filter.mp ht
        have htid : t.sourceId = s.sourceId := by
          have := ht2.2
          simpa using this
        rcases List.mem_append.mp ht2.1 with h12 | hL2
        · rcases List.mem_append.mp h12 with hL1 | hrep
          · exact hconst t (by simp [hL1]) htid
          · rw [(List.mem_replicate.mp hrep).2]
        · exact hconst t (by simp [hL2]) htid
      have h2 : avgProbOf (L1 ++ s :: L2) s.sourceId = s.probability := by
        apply avgProbOf_eq_of_const _ _ _
          (List.ne_nil_of_mem (List.mem_filter.mpr ⟨hsorig, by simp⟩))
        intro t ht
        have ht2 := List.mem_filter.mp ht
        have htid : t.sourceId = s.sourceId := by
          have := ht2.2
          simpa using this
        exact hconst t ht2.1 htid
      rw [h1, h2]
    · have hfilter : sourceSignalsOf (L1 ++ List.replicate k s ++ L2) sid
          = sourceSignalsOf (L1 ++ s :: L2) sid := by
        unfold sourceSignalsOf
        have hs : (s.sourceId == sid) = false := by
          simp [Ne.symm hsid]
        simp only [List.filter_append, List.filter_cons, hs,
          List.filter_replicate]
        simp [hs]
      unfold avgProbOf
      rw [hfilter]
  have hdata : sourceDataOf (L1 ++ List.replicate k s ++ L2)
      (source_reliability.getD (fun _ => none))
      = sourceDataOf (L1 ++ s :: L2)
        (source_reliability.getD (fun _ => none)) := by
    unfold sourceDataOf
    rw [hids]
    apply List.map_congr_left
    intro sid _
    rw [havg sid]
  have htot : totalWeightOf (L1 ++ List.replicate k s ++ L2)
      (source_reliability.getD (fun _ => none))
      = totalWeightOf (L1 ++ s :: L2)
        (source_reliability.getD (fun _ => none)) := by
    unfold totalWeightOf
    rw [hdata]
  rw [consensus_value _ _ hne1, consensus_value _ _ hne2, hdata, htot]

/-- C2 witness: the amended theorem applied to source `"a"`'s single signal
`0.7` duplicated three times next to a signal from `"b"`. -/
theorem consensus_duplicate_single_probability_source_witness :
    (compute_consensus ([] ++ List.replicate 3 (⟨"a", 7/10⟩ : Signal)
        ++ [⟨"b", 1/2⟩]) none).consensus
      = (compute_consensus ([] ++ (⟨"a", 7/10⟩ : Signal) :: [⟨"b", 1/2⟩])
          none).consensus :=
  consensus_duplicate_single_probability_source [] [⟨"b", 1/2⟩] ⟨"a", 7/10⟩ 3
    (by norm_num) none
    (by
      intro t ht hsid
      simp only [List.nil_append, List.mem_cons, List.not_mem_nil,
        or_false] at ht
      rcases ht with rfl | rfl
      · rfl
      · exact absurd hsid (by decide))
